import Mathlib

/-!
Verification of the F1 telemetry replay backend
(`backend/f1_data_processor.py`) against its specification.

The Python source is shallowly embedded below.  Machine floats are
modelled by exact rationals (ℚ); pandas/numpy tables are lists of
records; Python exceptions are `Except String`; the processor's mutable
attributes (`self.frames`, `self.driver_colors`, `self.track_coords`)
are an explicit state record threaded through `load_and_process`.
-/

namespace F1

/-- Python's `round(q, d)`: rounding to `d` decimal places.  Modelled with
Mathlib's `round` (half-up rather than Python's half-to-even; no claim
here depends on tie behaviour). -/
def roundTo (d : ℕ) (q : ℚ) : ℚ := (round (q * (10 : ℚ) ^ d) : ℤ) / (10 : ℚ) ^ d

/-- `np.searchsorted(ts, t)` with the default `side='left'` on a sorted
array: the left insertion point, i.e. the number of leading elements
strictly below `t`.  (numpy uses binary search; on sorted input it
computes exactly this value.) -/
def searchsorted : List ℚ → ℚ → ℕ
  | [], _ => 0
  | s :: rest, t => if s < t then searchsorted rest t + 1 else 0

/-- The index the processor resolves for a timestamp:
`idx = np.searchsorted(data['t'], t); idx = min(idx, len(data['t']) - 1)`
(lines 232-233, and likewise 268-269 for weather). -/
def sampleIdx (ts : List ℚ) (t : ℚ) : ℕ := min (searchsorted ts t) (ts.length - 1)

/-- `.min()` of a numpy array (callers guarantee nonemptiness; `0` is a
junk value for the empty case, which numpy would reject). -/
def arrMin : List ℚ → ℚ
  | [] => 0
  | x :: xs => xs.foldl min x

/-- `.max()` of a numpy array. -/
def arrMax : List ℚ → ℚ
  | [] => 0
  | x :: xs => xs.foldl max x

/-- `.max()` of an integer column (used for lap numbers). -/
def intMax : List ℤ → ℤ
  | [] => 0
  | x :: xs => xs.foldl max x

/-- `np.arange(start, stop, dt)` for `dt > 0`, in exact arithmetic:
`ceil((stop - start)/dt)` elements `start + k*dt`. -/
def arange (start stop dt : ℚ) : List ℚ :=
  (List.range (⌈(stop - start) / dt⌉).toNat).map (fun (k : ℕ) => start + (k : ℚ) * dt)

/-- One telemetry sample row of a lap's `get_telemetry()` table
(`SessionTime` in seconds, `X`, `Y`, `Distance`, `Speed`, `Throttle`,
`Brake`, `nGear`, `DRS`). -/
structure Sample where
  t : ℚ
  x : ℚ
  y : ℚ
  dist : ℚ
  speed : ℚ
  throttle : ℚ
  brake : ℚ
  gear : ℤ
  drs : ℤ
deriving DecidableEq

instance {ε α : Type} [DecidableEq ε] [DecidableEq α] : DecidableEq (Except ε α) := fun
  | .error e, .error f =>
      if h : e = f then .isTrue (by rw [h]) else .isFalse (by simp [h])
  | .error _, .ok _ => .isFalse (by simp)
  | .ok _, .error _ => .isFalse (by simp)
  | .ok a, .ok b =>
      if h : a = b then .isTrue (by rw [h]) else .isFalse (by simp [h])

/-- One lap record: its number, compound, and its telemetry table.
`lap.get_telemetry()` may raise, hence `Except`. -/
structure Lap where
  lapNumber : ℤ
  compound : String
  telemetry : Except String (List Sample)
deriving DecidableEq

/-- The `arrays` dict built per driver in `_process_frames`
(lines 175-205): columns concatenated across the driver's laps. -/
structure DriverData where
  t : List ℚ
  x : List ℚ
  y : List ℚ
  dist : List ℚ
  speed : List ℚ
  throttle : List ℚ
  brake : List ℚ
  gear : List ℤ
  drs : List ℤ
  lap : List ℤ
  tyre : List String
deriving DecidableEq

/-- The per-driver snapshot stored in a frame's `drivers` map
(lines 239-250). -/
structure DriverSnapshot where
  x : ℚ
  y : ℚ
  dist : ℚ
  speed : ℚ
  gear : ℤ
  throttle : ℚ
  brake : ℚ
  drs : ℤ
  lap : ℤ
  tyre : String
deriving DecidableEq

/-- One row of the session weather table (`Time` in seconds). -/
structure WeatherRow where
  time : ℚ
  track_temp : ℚ
  air_temp : ℚ
  humidity : ℚ
  wind_speed : ℚ
  rainfall : Bool
deriving DecidableEq

/-- The weather snapshot attached to a frame (lines 273-279). -/
structure Weather where
  track_temp : ℚ
  air_temp : ℚ
  humidity : ℚ
  wind_speed : ℚ
  rainfall : Bool
deriving DecidableEq

/-- One replay frame (lines 226-229 plus the weather key added later).
The `drivers` dict is a code-keyed association list, in insertion
order; `weather` is absent until `_add_weather_to_frames` sets it. -/
structure Frame where
  t : ℚ
  drivers : List (String × DriverSnapshot)
  weather : Option Weather
deriving DecidableEq

/-- `self.track_coords`: either the full dict (lines 139-148), with
`norm = some (scale, offset_x, offset_y)`, or the degraded
`{'x': [], 'y': []}` of the except branch (line 152), with
`norm = none`. -/
structure TrackCoords where
  x : List ℚ
  y : List ℚ
  distance : List ℚ
  norm : Option (ℚ × ℚ × ℚ)
deriving DecidableEq

/-- `self.track_coords.get('scale', 1)` (line 218). -/
def trackScale (tc : TrackCoords) : ℚ :=
  match tc.norm with
  | some (s, _, _) => s
  | none => 1

/-- `self.track_coords.get('offset_x', 0)` (line 219). -/
def trackOffX (tc : TrackCoords) : ℚ :=
  match tc.norm with
  | some (_, ox, _) => ox
  | none => 0

/-- `self.track_coords.get('offset_y', 0)` (line 220). -/
def trackOffY (tc : TrackCoords) : ℚ :=
  match tc.norm with
  | some (_, _, oy) => oy
  | none => 0

/-- One tyre stint `{compound, start_lap, end_lap}` (lines 401-405). -/
structure Stint where
  compound : String
  start_lap : ℤ
  end_lap : ℤ
deriving DecidableEq

/-- A lap row as seen by `get_tyre_strategy` (lap number and compound). -/
structure LapRec where
  lapNumber : ℤ
  compound : String
deriving DecidableEq

/-- The contribution of one lap to a driver's `arrays` dict
(lines 186-197): telemetry columns, with `lap`/`tyre` replicated to the
lap's sample count. -/
def lapArrays (lap : Lap) (tel : List Sample) : DriverData where
  t := tel.map (·.t)
  x := tel.map (·.x)
  y := tel.map (·.y)
  dist := tel.map (·.dist)
  speed := tel.map (·.speed)
  throttle := tel.map (·.throttle)
  brake := tel.map (·.brake)
  gear := tel.map (·.gear)
  drs := tel.map (·.drs)
  lap := tel.map (fun _ => lap.lapNumber)
  tyre := tel.map (fun _ => lap.compound)

/-- Concatenation of per-lap contributions (the `extend` calls). -/
def appendData (a b : DriverData) : DriverData where
  t := a.t ++ b.t
  x := a.x ++ b.x
  y := a.y ++ b.y
  dist := a.dist ++ b.dist
  speed := a.speed ++ b.speed
  throttle := a.throttle ++ b.throttle
  brake := a.brake ++ b.brake
  gear := a.gear ++ b.gear
  drs := a.drs ++ b.drs
  lap := a.lap ++ b.lap
  tyre := a.tyre ++ b.tyre

/-- The empty `arrays` dict (line 175). -/
def emptyData : DriverData := ⟨[], [], [], [], [], [], [], [], [], [], []⟩

/-- The per-lap loop of `_process_frames` (lines 181-197): visit the
driver's laps in order, skip laps with empty telemetry, and let an
exception from `lap.get_telemetry()` propagate (there is no try/except
around this loop). -/
def gatherLaps : List Lap → Except String DriverData
  | [] => .ok emptyData
  | lap :: rest =>
    match lap.telemetry with
    | .error e => .error e
    | .ok tel =>
      match gatherLaps rest with
      | .error e => .error e
      | .ok tail => .ok (appendData (lapArrays lap tel) tail)

/-- One driver's treatment in `_process_frames` (lines 168-207):
`none` when the driver is skipped (`laps.empty` at line 172, or no
telemetry rows at line 199), an error when a lap's telemetry fetch
raises. -/
def collectDriver (laps : List Lap) : Except String (Option DriverData) :=
  if laps.isEmpty then .ok none
  else
    match gatherLaps laps with
    | .error e => .error e
    | .ok d => if d.t.isEmpty then .ok none else .ok (some d)

/-- The driver-collection loop building `all_data` (lines 168-207), in
driver order; a raised exception aborts the loop. -/
def collectAllData : List (String × List Lap) → Except String (List (String × DriverData))
  | [] => .ok []
  | (code, laps) :: rest =>
    match collectDriver laps with
    | .error e => .error e
    | .ok d? =>
      match collectAllData rest with
      | .error e => .error e
      | .ok tail =>
        match d? with
        | none => .ok tail
        | some d => .ok ((code, d) :: tail)

/-- The running `global_t_min`/`global_t_max` accumulation
(lines 209-211): `none` when no driver contributed any telemetry. -/
def globalBounds (ds : List (String × DriverData)) : Option (ℚ × ℚ) :=
  ds.foldl
    (fun acc cd =>
      match acc with
      | none => some (arrMin cd.2.t, arrMax cd.2.t)
      | some (a, b) => some (min a (arrMin cd.2.t), max b (arrMax cd.2.t)))
    none

/-- The driver snapshot built for one timestep (lines 231-250):
resolve `idx` with `sampleIdx`, normalize the position with the track
scale/offsets, round numeric fields to one decimal, and default the
tyre to `'UNKNOWN'` when `idx` falls outside the compound list. -/
def mkSnapshot (d : DriverData) (scale ox oy : ℚ) (t : ℚ) : DriverSnapshot :=
  let idx := sampleIdx d.t t
  { x := roundTo 1 ((d.x.getD idx 0 - ox) * scale + 100)
    y := roundTo 1 ((d.y.getD idx 0 - oy) * scale + 100)
    dist := roundTo 1 (d.dist.getD idx 0)
    speed := roundTo 1 (d.speed.getD idx 0)
    gear := d.gear.getD idx 0
    throttle := roundTo 1 (d.throttle.getD idx 0)
    brake := roundTo 1 (d.brake.getD idx 0)
    drs := d.drs.getD idx 0
    lap := d.lap.getD idx 0
    tyre := d.tyre.getD idx "UNKNOWN" }

/-- The weather snapshot resolved for one timestep
(`_add_weather_to_frames`, lines 267-279): the same
clamped-`searchsorted` lookup into the weather `Time` column. -/
def mkWeather (w : List WeatherRow) (t : ℚ) : Weather :=
  let idx := sampleIdx (w.map (·.time)) t
  let row := w.getD idx ⟨0, 0, 0, 0, 0, false⟩
  { track_temp := roundTo 1 row.track_temp
    air_temp := roundTo 1 row.air_temp
    humidity := roundTo 1 row.humidity
    wind_speed := roundTo 1 row.wind_speed
    rainfall := row.rainfall }

/-- `_add_weather_to_frames` (lines 257-281): a missing or empty
weather table leaves the frames untouched; otherwise each frame gains
the weather snapshot for its timeline step. -/
def addWeather (w : List WeatherRow) (timeline : List ℚ) (frames : List Frame) : List Frame :=
  match w with
  | [] => frames
  | _ :: _ =>
    List.zipWith (fun t f => { f with weather := some (mkWeather w t) }) timeline frames

/-- The error message for `np.arange(None, None, dt)` — reached when no
driver contributed telemetry, so `global_t_min`/`global_t_max` are
still `None` (line 215). -/
def arangeNoneMsg : String :=
  "TypeError: unsupported operand type for arange: NoneType"

/-- `_process_frames` (lines 154-255): collect per-driver telemetry,
build the uniform timeline with `np.arange`, emit one frame per step
(`t` re-based to `global_t_min` and rounded to 3 decimals), then attach
weather.  Fails when a driver's telemetry fetch raises or when no
driver has telemetry. -/
def process_frames (drivers : List (String × List Lap)) (scale ox oy : ℚ)
    (weather : List WeatherRow) (fps : ℕ) : Except String (List Frame) :=
  match collectAllData drivers with
  | .error e => .error e
  | .ok allData =>
    match globalBounds allData with
    | none => .error arangeNoneMsg
    | some (gmin, gmax) =>
      let dt : ℚ := 1 / (fps : ℚ)
      let timeline := arange gmin gmax dt
      let frames := timeline.map (fun t =>
        { t := roundTo 3 (t - gmin)
          drivers := allData.map (fun cd => (cd.1, mkSnapshot cd.2 scale ox oy t))
          weather := none : Frame })
      .ok (addWeather weather timeline frames)

/-- `_extract_driver_colors` (lines 90-105): any exception from the
color-mapping fetch (or parsing) is caught and yields the empty map.
Colors are modelled by their hex strings; the hex→rgb parse is elided
(no claim mentions the rgb values). -/
def extract_driver_colors (mapping : Except String (List (String × String))) :
    List (String × String) :=
  match mapping with
  | .error _ => []
  | .ok m => m

/-- The 2D rotation applied to the fastest lap's coordinates
(lines 124-128), parameterized by the cosine and sine of the rotation
angle. -/
def rotateXY (cosr sinr : ℚ) (pts : List (ℚ × ℚ)) : List (ℚ × ℚ) :=
  pts.map (fun p => (p.1 * cosr - p.2 * sinr, p.1 * sinr + p.2 * cosr))

/-- The normalization of `_extract_track_coords` (lines 130-148) on the
(possibly rotated) coordinates: bounding box, `scale = 800 / max(w, h)`,
`x_norm = (x - x_min) * scale + 100` and likewise for y. -/
def normalizeTrack (pts : List (ℚ × ℚ)) (dist : List ℚ) : TrackCoords :=
  let xs := pts.map Prod.fst
  let ys := pts.map Prod.snd
  let xmin := arrMin xs
  let ymin := arrMin ys
  let scale := 800 / max (arrMax xs - xmin) (arrMax ys - ymin)
  { x := xs.map (fun v => (v - xmin) * scale + 100)
    y := ys.map (fun v => (v - ymin) * scale + 100)
    distance := dist
    norm := some (scale, xmin, ymin) }

/-- `_extract_track_coords` (lines 107-152): a raised fetch or an empty
coordinate table degrades to the `{'x': [], 'y': []}` dict (`.min()` on
an empty numpy array raises, caught at line 150); otherwise the rotated
coordinates are normalized. -/
def extract_track_coords (tel : Except String (List (ℚ × ℚ) × List ℚ))
    (cosr sinr : ℚ) (rotNonzero : Bool) : TrackCoords :=
  match tel with
  | .error _ => ⟨[], [], [], none⟩
  | .ok (pts, dist) =>
    if pts.isEmpty then ⟨[], [], [], none⟩
    else normalizeTrack (if rotNonzero then rotateXY cosr sinr pts else pts) dist

/-- What a successful `fastf1.get_session(...).load(...)` provides to
the pipeline: the color mapping (its fetch may raise, caught), the
fastest lap's coordinate table (its fetch may raise, caught), the
circuit rotation, the per-driver lap lists, the weather table, and the
lap-number maximum. -/
structure SessionData where
  colorMapping : Except String (List (String × String))
  fastestTel : Except String (List (ℚ × ℚ) × List ℚ)
  cosr : ℚ
  sinr : ℚ
  rotNonzero : Bool
  drivers : List (String × List Lap)
  weather : List WeatherRow
  totalLaps : ℤ

/-- The dict returned by `load_and_process` (lines 82-88). -/
structure Summary where
  total_frames : ℕ
  drivers : List String
  driver_colors : List (String × String)
  track : TrackCoords
  total_laps : ℤ
deriving DecidableEq

/-- The processor's mutable attributes observable by queries:
`self.frames`, `self.driver_colors`, `self.track_coords`. -/
structure PState where
  frames : List Frame
  driver_colors : List (String × String)
  track : TrackCoords
deriving DecidableEq

/-- The track geometry built during a load of `sd`. -/
def loadTrack (sd : SessionData) : TrackCoords :=
  extract_track_coords sd.fastestTel sd.cosr sd.sinr sd.rotNonzero

/-- The frame synthesis performed during a load of `sd`. -/
def loadFrames (sd : SessionData) (fps : ℕ) : Except String (List Frame) :=
  process_frames sd.drivers (trackScale (loadTrack sd)) (trackOffX (loadTrack sd))
    (trackOffY (loadTrack sd)) sd.weather fps

/-- `load_and_process` (lines 58-88) as a state transformer: each stage
mutates `self` in place, so the returned `PState` is the state at the
point of failure.  A fetch failure (`get_session`/`session.load`
raising) leaves all three attributes untouched; after a successful
fetch, colors and track are overwritten unconditionally (their
extractors catch their own errors), and `self.frames` is only replaced
when `_process_frames` succeeds. -/
def load_and_process (st : PState) (fetch : Except String SessionData) (fps : ℕ) :
    Except String Summary × PState :=
  match fetch with
  | .error e => (.error e, st)
  | .ok sd =>
    let colors := extract_driver_colors sd.colorMapping
    let track := loadTrack sd
    let st2 : PState := { frames := st.frames, driver_colors := colors, track := track }
    match loadFrames sd fps with
    | .error e => (.error e, st2)
    | .ok fs =>
      (.ok { total_frames := fs.length
             drivers := colors.map Prod.fst
             driver_colors := colors
             track := track
             total_laps := sd.totalLaps },
       { st2 with frames := fs })

/-- Python's slice-bound normalization for a list of length `len`
(step 1): a negative bound counts from the end, then both bounds are
clamped into `[0, len]`. -/
def pySliceIdx (len i : ℤ) : ℤ :=
  if i < 0 then max (len + i) 0 else min i len

/-- Python's `xs[start:stop]` (step 1). -/
def pySlice {α : Type} (xs : List α) (start stop : ℤ) : List α :=
  let n : ℤ := xs.length
  ((xs.take (pySliceIdx n stop).toNat).drop (pySliceIdx n start).toNat)

/-- `get_frames` (lines 283-285): `self.frames[start:end]`. -/
def get_frames (frames : List Frame) (start stop : ℤ) : List Frame :=
  pySlice frames start stop

/-- `get_frame` (lines 287-291): the frame at `index` when
`0 <= index < len(self.frames)`, and the empty dict — modelled as
`none` — otherwise. -/
def get_frame (frames : List Frame) (index : ℤ) : Option Frame :=
  if 0 ≤ index ∧ index < (frames.length : ℤ) then frames.get? index.toNat else none

/-- `int(driver_laps['LapNumber'].max())` (line 414). -/
def maxLapVal (laps : List LapRec) : ℤ := intMax (laps.map (·.lapNumber))

/-- The stint loop of `get_tyre_strategy` (lines 393-415), with the
final-stint append fused into the base case.  `cur` mirrors
`current_compound` (`none` for Python's `None`); the guard
`if current_compound:` is Python truthiness, false for `None` and for
the empty string. -/
def stintsFrom : List LapRec → Option String → ℤ → ℤ → List Stint
  | [], cur, start, maxl =>
    match cur with
    | some s => if s ≠ "" then [⟨s, start, maxl⟩] else []
    | none => []
  | lap :: rest, cur, start, maxl =>
    if some lap.compound ≠ cur then
      (match cur with
       | some s => if s ≠ "" then [⟨s, start, lap.lapNumber - 1⟩] else []
       | none => []) ++ stintsFrom rest (some lap.compound) lap.lapNumber maxl
    else stintsFrom rest cur start maxl

/-- `get_tyre_strategy`'s stint list for one driver (lines 390-415),
on the driver's laps already sorted by `LapNumber`. -/
def tyreStints (laps : List LapRec) : List Stint :=
  stintsFrom laps none 1 (maxLapVal laps)

/-- Whether some stint in the list covers lap `n`. -/
def coversLap (sts : List Stint) (n : ℤ) : Bool :=
  sts.any (fun s => s.start_lap ≤ n && n ≤ s.end_lap)

/-- Modelled from the spec (§4.5): the reference run-length grouping of
the compound sequence — a new stint begins exactly when the compound
differs from the previous lap's — used to compare `tyreStints` against
the spec's stint-boundary rule.  `start`/`c` are the open stint's start
lap and compound, `pos` the last lap number seen. -/
def rleFrom (start : ℤ) (c : String) (pos : ℤ) : List String → List Stint
  | [] => [⟨c, start, pos⟩]
  | d :: rest =>
    if d = c then rleFrom start c (pos + 1) rest
    else ⟨c, start, pos⟩ :: rleFrom (pos + 1) d (pos + 1) rest

/-- Modelled from the spec (§4.5): run-length stints of a compound
sequence for laps numbered 1, 2, …. -/
def rleStints : List String → List Stint
  | [] => []
  | c :: rest => rleFrom 1 c 1 rest

/-- `sts` is a contiguous, ordered partition of the lap interval
`[a, b]` into stints: each stint starts where the previous one ended
plus one, and the last ends at `b`. -/
def stintChain : ℤ → ℤ → List Stint → Prop
  | a, b, [] => a = b + 1
  | a, b, s :: rest => s.start_lap = a ∧ a ≤ s.end_lap ∧ stintChain (s.end_lap + 1) b rest

/-- The laps carry consecutive lap numbers `a, a+1, a+2, …`. -/
def numberedFrom (laps : List LapRec) (a : ℤ) : Prop :=
  ∀ i, i < laps.length → (laps.getD i ⟨0, ""⟩).lapNumber = a + i

instance (laps : List LapRec) (a : ℤ) : Decidable (numberedFrom laps a) :=
  inferInstanceAs
    (Decidable (∀ i, i < laps.length → (laps.getD i ⟨0, ""⟩).lapNumber = a + i))

/-! Concrete inputs used by witnesses and counterexamples. -/

/-- A telemetry sample at t = 0. -/
def exS0 : Sample := ⟨0, 5, 5, 0, 100, 50, 0, 3, 0⟩

/-- A telemetry sample at t = 1. -/
def exS1 : Sample := ⟨1, 6, 6, 10, 120, 60, 0, 4, 0⟩

/-- A lap whose telemetry fetch succeeds with two samples. -/
def exGoodLap : Lap := ⟨1, "SOFT", .ok [exS0, exS1]⟩

/-- A lap whose telemetry fetch raises. -/
def exBadLap : Lap := ⟨1, "SOFT", .error "telemetry fetch failed"⟩

/-- A frame with t = 0 and no drivers. -/
def exFrameA : Frame := ⟨0, [], none⟩

/-- A frame with t = 1 and no drivers. -/
def exFrameB : Frame := ⟨1, [], none⟩

/-- A previously loaded processor state: one frame, one driver color,
degraded track. -/
def exStOld : PState := ⟨[exFrameA], [("VER", "#ff0000")], ⟨[], [], [], none⟩⟩

/-- A session whose only driver has no laps at all: `_process_frames`
reaches `np.arange(None, None, dt)` and raises. -/
def exSdNoTel : SessionData :=
  ⟨.ok [("VER", "#0000ff")], .error "no fastest lap", 1, 0, false, [("VER", [])], [], 1⟩

/-- A session where VER has telemetry and HAM has zero telemetry rows,
while the color mapping lists both. -/
def exSdHam : SessionData :=
  ⟨.ok [("VER", "#0000ff"), ("HAM", "#ff0000")], .error "no fastest lap", 1, 0, false,
   [("VER", [exGoodLap]), ("HAM", [])], [], 1⟩

/-- The single frame synthesized from `exSdHam` at 1 fps. -/
def exFrameVER : Frame := ⟨0, [("VER", ⟨105, 105, 0, 100, 3, 50, 0, 0, 1, "SOFT"⟩)], none⟩

/-! Helper lemmas about `searchsorted` and `sampleIdx`. -/

theorem searchsorted_le_length (ts : List ℚ) (t : ℚ) : searchsorted ts t ≤ ts.length := by
  induction ts with
  | nil => simp [searchsorted]
  | cons s rest ih =>
    simp only [searchsorted, List.length_cons]
    split
    · omega
    · omega

theorem getD_lt_of_lt_searchsorted (ts : List ℚ) (t : ℚ) (j : ℕ)
    (hj : j < searchsorted ts t) : ts.getD j 0 < t := by
  induction ts generalizing j with
  | nil => simp [searchsorted] at hj
  | cons s rest ih =>
    simp only [searchsorted] at hj
    split at hj
    · cases j with
      | zero => simpa [List.getD_cons_zero]
      | succ j => simpa [List.getD_cons_succ] using ih j (by omega)
    · omega

theorem le_getD_of_searchsorted_le (ts : List ℚ) (t : ℚ) (j : ℕ)
    (hs : ts.Sorted (· ≤ ·)) (h1 : searchsorted ts t ≤ j) (h2 : j < ts.length) :
    t ≤ ts.getD j 0 := by
  induction ts generalizing j with
  | nil => simp at h2
  | cons s rest ih =>
    rw [List.sorted_cons] at hs
    simp only [searchsorted] at h1
    split at h1
    · cases j with
      | zero => omega
      | succ j =>
        simpa [List.getD_cons_succ] using
          ih j hs.2 (by omega) (by simpa using h2)
    · rename_i hst
      cases j with
      | zero => simpa [List.getD_cons_zero] using not_lt.mp hst
      | succ j =>
        have hmem : rest.getD j 0 ∈ rest := by
          have hlen : j < rest.length := by simpa using h2
          rw [List.getD_eq_getElem _ _ hlen]
          exact List.getElem_mem hlen
        have := hs.1 _ hmem
        simp only [List.getD_cons_succ]
        exact le_trans (not_lt.mp hst) this

/-- C1 (counterexample): the lookup is not nearest-past.  For the
stream with timestamps `[0, 1]` and the covered step `t_k = 1/2`, the
code resolves index 1 (`searchsorted` returns the left insertion
point, which is never decremented), whose timestamp 1 exceeds `t_k` —
contradicting the claimed `stream.t[i] ≤ t_k`. -/
theorem c1_not_nearest_past :
    sampleIdx [(0 : ℚ), 1] (1 / 2) = 1 ∧
      ¬ ([(0 : ℚ), 1].getD (sampleIdx [(0 : ℚ), 1] (1 / 2)) 0 ≤ 1 / 2) := by
  constructor
  · norm_num [sampleIdx, searchsorted]
  · intro h
    norm_num [sampleIdx, searchsorted] at h

/-- C1 (amended): for every sorted nonempty stream and every timestamp,
the resolved index `sampleIdx` is the *earliest* sample index whose
timestamp is ≥ `t_k`, clamped to the last index — i.e. every sample
strictly before it is `< t_k`, and either its own timestamp is `≥ t_k`
or it is the last index (a step past the stream's end is clamped to the
last sample; a step before the first timestamp resolves to index 0).
The weather lookup (`_add_weather_to_frames`) applies the same
`sampleIdx` to the weather `Time` column (see `mkWeather`). -/
theorem c1_sampleIdx_resolves (ts : List ℚ) (t : ℚ) (hne : ts ≠ [])
    (hs : ts.Sorted (· ≤ ·)) :
    sampleIdx ts t < ts.length ∧
      (∀ j, j < sampleIdx ts t → ts.getD j 0 < t) ∧
      (t ≤ ts.getD (sampleIdx ts t) 0 ∨ sampleIdx ts t = ts.length - 1) := by
  have hlen : 0 < ts.length := List.length_pos.mpr hne
  have hss := searchsorted_le_length ts t
  refine ⟨?_, ?_, ?_⟩
  · simp only [sampleIdx]
    omega
  · intro j hj
    exact getD_lt_of_lt_searchsorted ts t j (by simp only [sampleIdx] at hj; omega)
  · by_cases hc : searchsorted ts t ≤ ts.length - 1
    · left
      have hidx : sampleIdx ts t = searchsorted ts t := by
        simp only [sampleIdx]; omega
      rw [hidx]
      exact le_getD_of_searchsorted_le ts t _ hs le_rfl (by omega)
    · right
      simp only [sampleIdx]
      omega

/-- C1 (witness): the amended characterization applied to the stream
`[0, 1]` at `t_k = 1/2`. -/
theorem c1_sampleIdx_resolves_witness :
    sampleIdx [(0 : ℚ), 1] (1 / 2) < 2 ∧
      (∀ j, j < sampleIdx [(0 : ℚ), 1] (1 / 2) → [(0 : ℚ), 1].getD j 0 < 1 / 2) ∧
      (1 / 2 ≤ [(0 : ℚ), 1].getD (sampleIdx [(0 : ℚ), 1] (1 / 2)) 0 ∨
        sampleIdx [(0 : ℚ), 1] (1 / 2) = 2 - 1) := by
  have h := c1_sampleIdx_resolves [(0 : ℚ), 1] (1 / 2) (by simp)
    (by simp [List.sorted_cons])
  simpa using h

/-! Helper lemmas about the driver-collection loop. -/

theorem collectAllData_all_none (ds : List (String × List Lap))
    (h : ∀ p ∈ ds, collectDriver p.2 = .ok none) : collectAllData ds = .ok [] := by
  induction ds with
  | nil => rfl
  | cons p rest ih =>
    have hp := h p (by simp)
    have hr := ih (fun q hq => h q (by simp [hq]))
    simp only [collectAllData]
    rw [hp, hr]

theorem collectAllData_skip (pre post : List (String × List Lap))
    (c : String) (laps : List Lap) (h : collectDriver laps = .ok none) :
    collectAllData (pre ++ (c, laps) :: post) = collectAllData (pre ++ post) := by
  induction pre with
  | nil =>
    simp only [List.nil_append, collectAllData]
    rw [h]
    cases hpost : collectAllData post <;> simp
  | cons q pre ih =>
    simp only [List.cons_append, collectAllData, List.append_eq]
    rw [ih]

/-- The frame synthesis of `exSdHam` at 1 fps: one frame, holding only
VER's snapshot. -/
theorem exSdHam_frames :
    process_frames [("VER", [exGoodLap]), ("HAM", [])] 1 0 0 [] 1 = .ok [exFrameVER] := by
  norm_num [process_frames, collectAllData, collectDriver, gatherLaps, exGoodLap,
    lapArrays, appendData, emptyData, exS0, exS1, globalBounds, arrMin, arrMax,
    arange, addWeather, mkSnapshot, sampleIdx, searchsorted, roundTo, exFrameVER,
    List.range_succ, List.range_zero, List.flatMap_cons, List.flatMap_nil]

/-- C6 (counterexample): a session where no driver has telemetry does
not degrade to an empty frame sequence — `_process_frames` reaches
`np.arange(None, None, dt)` with the bounds still `None` and raises;
the synthesis errors instead of completing. -/
theorem c6_no_telemetry_raises :
    process_frames [("VER", [])] 1 0 0 [] 25 = .error arangeNoneMsg := rfl

/-- C6 (amended): if no driver in the session has any telemetry (every
driver is skipped, contributing nothing to the global bounds), frame
synthesis raises the `arange`-on-`None` error and the load aborts; no
frame sequence is produced. -/
theorem c6_no_telemetry_error (ds : List (String × List Lap)) (s ox oy : ℚ)
    (w : List WeatherRow) (fps : ℕ) (h : ∀ p ∈ ds, collectDriver p.2 = .ok none) :
    process_frames ds s ox oy w fps = .error arangeNoneMsg := by
  simp only [process_frames]
  rw [collectAllData_all_none ds h]
  rfl

/-- C6 (witness): the amended statement at the one-driver no-laps
session. -/
theorem c6_no_telemetry_error_witness :
    process_frames [("VER", [])] 1 0 0 [] 1 = .error arangeNoneMsg :=
  c6_no_telemetry_error [("VER", [])] 1 0 0 [] 1 (by intro p hp; simp at hp; subst hp; rfl)

/-- C4 (counterexample): an error raised while extracting one driver's
telemetry aborts the whole synthesis.  With ALO's lap raising and VER's
lap fine, `_process_frames` propagates ALO's exception and produces no
frames at all, instead of excluding ALO and continuing. -/
theorem c4_driver_error_aborts :
    process_frames [("ALO", [exBadLap]), ("VER", [exGoodLap])] 1 0 0 [] 25 =
      .error "telemetry fetch failed" := rfl

/-- C4 (amended): there is no per-driver exception handling in
`_process_frames`: an exception from any lap's telemetry fetch of any
driver propagates and aborts the entire synthesis (only drivers with no
laps, or with only empty telemetry tables, are silently excluded). -/
theorem c4_error_propagates (c : String) (laps : List Lap)
    (rest : List (String × List Lap)) (s ox oy : ℚ) (w : List WeatherRow)
    (fps : ℕ) (e : String) (hne : laps ≠ []) (herr : gatherLaps laps = .error e) :
    process_frames ((c, laps) :: rest) s ox oy w fps = .error e := by
  have hcd : collectDriver laps = .error e := by
    simp only [collectDriver, List.isEmpty_iff, if_neg hne]
    rw [herr]
  simp only [process_frames, collectAllData]
  rw [hcd]

/-- C4 (witness): the amended statement at the ALO/VER session. -/
theorem c4_error_propagates_witness :
    process_frames [("ALO", [exBadLap]), ("VER", [exGoodLap])] 1 0 0 [] 1 =
      .error "telemetry fetch failed" :=
  c4_error_propagates "ALO" [exBadLap] [("VER", [exGoodLap])] 1 0 0 [] 1
    "telemetry fetch failed" (by simp) rfl

/-- C5 (counterexample): a driver with zero telemetry rows is *not*
excluded from the `drivers` list of the load summary.  HAM has no laps,
yet the summary's `drivers` — built from the driver-color mapping, not
from telemetry — still lists HAM; only the frames exclude HAM. -/
theorem c5_summary_keeps_zero_telemetry_driver :
    load_and_process exStOld (.ok exSdHam) 1 =
      (.ok ⟨1, ["VER", "HAM"], [("VER", "#0000ff"), ("HAM", "#ff0000")],
        ⟨[], [], [], none⟩, 1⟩,
       ⟨[exFrameVER], [("VER", "#0000ff"), ("HAM", "#ff0000")], ⟨[], [], [], none⟩⟩) ∧
      "HAM" ∈ (["VER", "HAM"] : List String) ∧
      ∀ f ∈ [exFrameVER], "HAM" ∉ f.drivers.map Prod.fst := by
  refine ⟨?_, by simp, by simp [exFrameVER]⟩
  have hlf : loadFrames exSdHam 1 = .ok [exFrameVER] := exSdHam_frames
  simp only [load_and_process, hlf]
  rfl

/-- C5 (amended): a driver with zero telemetry rows is excluded from
every frame's driver map and leaves every other driver's snapshot (and
the whole frame sequence) unchanged — synthesis on a session containing
such a driver equals synthesis on the session without it.  The
`drivers` list of the load summary, however, is the key list of the
driver-color mapping and can still contain the driver. -/
theorem c5_zero_telemetry_driver_excluded (pre post : List (String × List Lap))
    (c : String) (laps : List Lap) (s ox oy : ℚ) (w : List WeatherRow) (fps : ℕ)
    (h : collectDriver laps = .ok none) :
    process_frames (pre ++ (c, laps) :: post) s ox oy w fps =
      process_frames (pre ++ post) s ox oy w fps := by
  simp only [process_frames]
  rw [collectAllData_skip pre post c laps h]

/-- C5 (witness): dropping no-telemetry HAM from the VER/HAM session
leaves the synthesis unchanged. -/
theorem c5_zero_telemetry_driver_excluded_witness :
    process_frames [("VER", [exGoodLap]), ("HAM", [])] 1 0 0 [] 1 =
      process_frames [("VER", [exGoodLap])] 1 0 0 [] 1 :=
  c5_zero_telemetry_driver_excluded [("VER", [exGoodLap])] [] "HAM" [] 1 0 0 [] 1 rfl

/-- C3 (counterexample): a load that fails during frame synthesis
leaves a partially rebuilt session observable.  Starting from a loaded
state (one frame, VER colored red), loading a session whose only driver
has no telemetry raises in `_process_frames` — after which the reader
sees the *new* driver colors (VER now blue) next to the *old* frame
sequence: neither the previous nor a new complete session. -/
theorem c3_partial_rebuild_observable :
    (load_and_process exStOld (.ok exSdNoTel) 25).1 = .error arangeNoneMsg ∧
      (load_and_process exStOld (.ok exSdNoTel) 25).2.driver_colors ≠
        exStOld.driver_colors ∧
      (load_and_process exStOld (.ok exSdNoTel) 25).2.frames = exStOld.frames := by
  have hload : load_and_process exStOld (.ok exSdNoTel) 25 =
      (.error arangeNoneMsg,
       ⟨[exFrameA], [("VER", "#0000ff")], ⟨[], [], [], none⟩⟩) := rfl
  refine ⟨by rw [hload], ?_, by rw [hload]; rfl⟩
  rw [hload]
  simp [exStOld]

/-- C3 (amended): only a failure of the external session fetch itself
leaves the previous session fully intact.  After a successful fetch, a
failure in frame synthesis still returns an error, and the previous
frame sequence is still served — but the driver colors and track
geometry have already been overwritten with the new session's values,
so a reader can observe a partially rebuilt session. -/
theorem c3_load_failure_states :
    (∀ (st : PState) (fps : ℕ) (e : String),
      load_and_process st (.error e) fps = (.error e, st)) ∧
    (∀ (st : PState) (sd : SessionData) (fps : ℕ) (e : String),
      loadFrames sd fps = .error e →
      load_and_process st (.ok sd) fps =
        (.error e, ⟨st.frames, extract_driver_colors sd.colorMapping, loadTrack sd⟩)) := by
  constructor
  · intro st fps e
    rfl
  · intro st sd fps e h
    simp only [load_and_process, h]

/-- C3 (witness): both amended cases at concrete inputs — a fetch
failure preserves the old state, and the no-telemetry synthesis failure
installs the new colors while keeping the old frames. -/
theorem c3_load_failure_states_witness :
    load_and_process exStOld (.error "socket timeout") 25 =
      (.error "socket timeout", exStOld) ∧
    load_and_process exStOld (.ok exSdNoTel) 25 =
      (.error arangeNoneMsg,
       ⟨exStOld.frames, extract_driver_colors exSdNoTel.colorMapping, loadTrack exSdNoTel⟩) :=
  ⟨c3_load_failure_states.1 exStOld 25 "socket timeout",
   c3_load_failure_states.2 exStOld exSdNoTel 25 arangeNoneMsg rfl⟩

/-! Helper lemmas about Python slicing. -/

theorem take_min_length {α : Type} (xs : List α) (m : ℕ) :
    xs.take (min m xs.length) = xs.take m := by
  rcases le_total m xs.length with h | h
  · rw [min_eq_left h]
  · rw [min_eq_right h]
    rw [List.take_of_length_le le_rfl, List.take_of_length_le h]

theorem drop_pred_eq_getLast {α : Type} :
    ∀ (xs : List α) (h : xs ≠ []), xs.drop (xs.length - 1) = [xs.getLast h] := by
  intro xs
  induction xs with
  | nil => intro h; exact absurd rfl h
  | cons x rest ih =>
    intro h
    cases rest with
    | nil => rfl
    | cons y t =>
      have h2 : (y :: t) ≠ [] := by simp
      rw [List.getLast_cons h2]
      rw [show (x :: y :: t).length - 1 = ((y :: t).length - 1) + 1 by
        simp [List.length_cons]]
      rw [List.drop_succ_cons]
      exact ih h2

/-- C9 (counterexample): `get_frames` does not clamp a negative start
into range.  On a two-frame sequence, `get_frames(-1, 2)` returns only
the last frame (Python's from-the-end indexing), not the clamped slice
`[0, 2)` that the claim's for-all-integers clamping reading dictates. -/
theorem c9_negative_start_not_clamped :
    get_frames [exFrameA, exFrameB] (-1) 2 = [exFrameB] ∧
      get_frames [exFrameA, exFrameB] (-1) 2 ≠ [exFrameA, exFrameB] := by
  constructor
  · rfl
  · intro h
    rw [show get_frames [exFrameA, exFrameB] (-1) 2 = [exFrameB] from rfl] at h
    simpa using congrArg List.length h

/-- C9 (amended): for *non-negative* integer arguments, `get_frames`
returns exactly the half-open slice `[start, end)` with out-of-range
bounds clamped silently (empty sequence when `start ≥ total_frames`,
never an error); and `get_frame` returns the frame at `index` when
`0 ≤ index < length` and a not-found result (`none`, the empty dict)
otherwise.  Negative arguments instead follow Python's from-the-end
semantics (claim C10). -/
theorem c9_get_frames_spec (frames : List Frame) :
    (∀ start stop : ℤ, 0 ≤ start → 0 ≤ stop →
      get_frames frames start stop = (frames.take stop.toNat).drop start.toNat) ∧
    (∀ start stop : ℤ, (frames.length : ℤ) ≤ start →
      get_frames frames start stop = []) ∧
    (∀ i : ℤ, 0 ≤ i → i < (frames.length : ℤ) →
      get_frame frames i = frames.get? i.toNat) ∧
    (∀ i : ℤ, i < 0 ∨ (frames.length : ℤ) ≤ i → get_frame frames i = none) := by
  refine ⟨?_, ?_, ?_, ?_⟩
  · intro start stop hs he
    simp only [get_frames, pySlice, pySliceIdx, if_neg (not_lt.mpr hs),
      if_neg (not_lt.mpr he)]
    have h1 : (min stop (frames.length : ℤ)).toNat = min stop.toNat frames.length := by
      omega
    have h2 : (min start (frames.length : ℤ)).toNat = min start.toNat frames.length := by
      omega
    rw [h1, h2, take_min_length]
    rcases le_total start.toNat frames.length with h | h
    · rw [min_eq_left h]
    · rw [min_eq_right h]
      have hlen : (frames.take stop.toNat).length ≤ frames.length := by
        simp [List.length_take]
      rw [List.drop_eq_nil_of_le hlen,
        List.drop_eq_nil_of_le (le_trans hlen h)]
  · intro start stop hs
    have hs0 : 0 ≤ start := le_trans (Int.ofNat_nonneg _) hs
    simp only [get_frames, pySlice, pySliceIdx, if_neg (not_lt.mpr hs0)]
    have h2 : (min start (frames.length : ℤ)).toNat = frames.length := by omega
    rw [h2]
    exact List.drop_eq_nil_of_le (by
      split
      · simp [List.length_take]
      · simp [List.length_take])
  · intro i h0 hlt
    simp only [get_frame]
    exact if_pos ⟨h0, hlt⟩
  · intro i h
    have : ¬ (0 ≤ i ∧ i < (frames.length : ℤ)) := by omega
    simp only [get_frame, if_neg this]

/-- C9 (witness): the amended contract evaluated on a two-frame
sequence: an in-range slice, an out-of-range empty slice, an in-range
point query and an out-of-range point query. -/
theorem c9_get_frames_spec_witness :
    get_frames [exFrameA, exFrameB] 1 5 =
      (([exFrameA, exFrameB].take (5 : ℤ).toNat).drop (1 : ℤ).toNat) ∧
    get_frames [exFrameA, exFrameB] 2 9 = [] ∧
    get_frame [exFrameA, exFrameB] 1 = [exFrameA, exFrameB].get? (1 : ℤ).toNat ∧
    get_frame [exFrameA, exFrameB] 7 = none :=
  ⟨(c9_get_frames_spec [exFrameA, exFrameB]).1 1 5 (by norm_num) (by norm_num),
   (c9_get_frames_spec [exFrameA, exFrameB]).2.1 2 9 (by norm_num),
   (c9_get_frames_spec [exFrameA, exFrameB]).2.2.1 1 (by norm_num) (by norm_num),
   (c9_get_frames_spec [exFrameA, exFrameB]).2.2.2 7 (by norm_num)⟩

/-- C10: `get_frames` follows Python slice semantics for negative
arguments: a negative index counts backward from the end of the frame
sequence — `get_frames(-1, length)` returns exactly the last frame, and
any in-range negative start or end bound is equivalent to `length +
bound` — rather than being clamped to 0 or rejected. -/
theorem c10_negative_indices (frames : List Frame) (h : frames ≠ []) :
    get_frames frames (-1) (frames.length : ℤ) = [frames.getLast h] ∧
    (∀ start stop : ℤ, -(frames.length : ℤ) ≤ start → start < 0 →
      get_frames frames start stop =
        get_frames frames ((frames.length : ℤ) + start) stop) ∧
    (∀ start stop : ℤ, -(frames.length : ℤ) ≤ stop → stop < 0 →
      get_frames frames start stop =
        get_frames frames start ((frames.length : ℤ) + stop)) := by
  have hlen : 0 < frames.length := List.length_pos.mpr h
  refine ⟨?_, ?_, ?_⟩
  · simp only [get_frames, pySlice, pySliceIdx]
    rw [if_pos (by omega : (-1 : ℤ) < 0),
      if_neg (not_lt.mpr (Int.ofNat_nonneg frames.length))]
    have h1 : (min (frames.length : ℤ) (frames.length : ℤ)).toNat = frames.length := by
      omega
    have h2 : (max ((frames.length : ℤ) + -1) 0).toNat = frames.length - 1 := by omega
    rw [h1, h2, List.take_of_length_le le_rfl]
    exact drop_pred_eq_getLast frames h
  · intro start stop h1 h2
    have heq : pySliceIdx (frames.length : ℤ) start =
        pySliceIdx (frames.length : ℤ) ((frames.length : ℤ) + start) := by
      simp only [pySliceIdx]
      rw [if_pos h2, if_neg (by omega : ¬ (frames.length : ℤ) + start < 0)]
      omega
    simp only [get_frames, pySlice]
    rw [heq]
  · intro start stop h1 h2
    have heq : pySliceIdx (frames.length : ℤ) stop =
        pySliceIdx (frames.length : ℤ) ((frames.length : ℤ) + stop) := by
      simp only [pySliceIdx]
      rw [if_pos h2, if_neg (by omega : ¬ (frames.length : ℤ) + stop < 0)]
      omega
    simp only [get_frames, pySlice]
    rw [heq]

/-- C10 (witness): on the two-frame sequence, `get_frames(-1, 2)`
returns the last frame and `get_frames(-2, 1)` equals
`get_frames(0, 1)`. -/
theorem c10_negative_indices_witness :
    get_frames [exFrameA, exFrameB] (-1) 2 = [[exFrameA, exFrameB].getLast (by simp)] ∧
    get_frames [exFrameA, exFrameB] (-2) 1 = get_frames [exFrameA, exFrameB] (2 + -2) 1 := by
  have h := c10_negative_indices [exFrameA, exFrameB] (by simp)
  exact ⟨h.1, h.2.1 (-2) 1 (by norm_num) (by norm_num)⟩

/-! Helper lemmas about `arrMin`/`arrMax` under monotone maps. -/

theorem foldl_min_map (f : ℚ → ℚ) (hf : Monotone f) :
    ∀ (xs : List ℚ) (a : ℚ), (xs.map f).foldl min (f a) = f (xs.foldl min a) := by
  intro xs
  induction xs with
  | nil => intro a; rfl
  | cons x xs ih =>
    intro a
    simp only [List.map_cons, List.foldl_cons]
    rw [← hf.map_min]
    exact ih (min a x)

theorem foldl_max_map (f : ℚ → ℚ) (hf : Monotone f) :
    ∀ (xs : List ℚ) (a : ℚ), (xs.map f).foldl max (f a) = f (xs.foldl max a) := by
  intro xs
  induction xs with
  | nil => intro a; rfl
  | cons x xs ih =>
    intro a
    simp only [List.map_cons, List.foldl_cons]
    rw [← hf.map_max]
    exact ih (max a x)

theorem arrMin_map_mono (f : ℚ → ℚ) (hf : Monotone f) (l : List ℚ) (hne : l ≠ []) :
    arrMin (l.map f) = f (arrMin l) := by
  cases l with
  | nil => exact absurd rfl hne
  | cons x xs =>
    simp only [List.map_cons, arrMin]
    exact foldl_min_map f hf xs x

theorem arrMax_map_mono (f : ℚ → ℚ) (hf : Monotone f) (l : List ℚ) (hne : l ≠ []) :
    arrMax (l.map f) = f (arrMax l) := by
  cases l with
  | nil => exact absurd rfl hne
  | cons x xs =>
    simp only [List.map_cons, arrMax]
    exact foldl_max_map f hf xs x

/-- C7: for every successfully built track geometry (nonempty,
non-degenerate fastest-lap coordinates), the stored scale is
`800 / max(bounding-box width, bounding-box height)`, the normalized
coordinates have minimum exactly 100 on both axes (hence are ≥ 0), and
each axis spans at most 800 units. -/
theorem c7_track_normalization (pts : List (ℚ × ℚ)) (dist : List ℚ)
    (hne : pts ≠ [])
    (hdeg : 0 < max (arrMax (pts.map Prod.fst) - arrMin (pts.map Prod.fst))
        (arrMax (pts.map Prod.snd) - arrMin (pts.map Prod.snd))) :
    (normalizeTrack pts dist).norm =
      some (800 / max (arrMax (pts.map Prod.fst) - arrMin (pts.map Prod.fst))
          (arrMax (pts.map Prod.snd) - arrMin (pts.map Prod.snd)),
        arrMin (pts.map Prod.fst), arrMin (pts.map Prod.snd)) ∧
    arrMin (normalizeTrack pts dist).x = 100 ∧
    arrMin (normalizeTrack pts dist).y = 100 ∧
    arrMax (normalizeTrack pts dist).x - arrMin (normalizeTrack pts dist).x ≤ 800 ∧
    arrMax (normalizeTrack pts dist).y - arrMin (normalizeTrack pts dist).y ≤ 800 := by
  have hxne : pts.map Prod.fst ≠ [] := by
    simpa [List.map_eq_nil_iff] using hne
  have hyne : pts.map Prod.snd ≠ [] := by
    simpa [List.map_eq_nil_iff] using hne
  set xs := pts.map Prod.fst with hxs
  set ys := pts.map Prod.snd with hys
  set S := max (arrMax xs - arrMin xs) (arrMax ys - arrMin ys) with hSdef
  have hscale : 0 < 800 / S := div_pos (by norm_num) hdeg
  have hmonox : Monotone (fun v => (v - arrMin xs) * (800 / S) + 100) := by
    intro a b hab
    have := mul_le_mul_of_nonneg_right (sub_le_sub_right hab (arrMin xs)) (le_of_lt hscale)
    simpa using add_le_add_right this 100
  have hmonoy : Monotone (fun v => (v - arrMin ys) * (800 / S) + 100) := by
    intro a b hab
    have := mul_le_mul_of_nonneg_right (sub_le_sub_right hab (arrMin ys)) (le_of_lt hscale)
    simpa using add_le_add_right this 100
  have hxlist : (normalizeTrack pts dist).x =
      xs.map (fun v => (v - arrMin xs) * (800 / S) + 100) := rfl
  have hylist : (normalizeTrack pts dist).y =
      ys.map (fun v => (v - arrMin ys) * (800 / S) + 100) := rfl
  have hminx : arrMin (normalizeTrack pts dist).x = 100 := by
    rw [hxlist, arrMin_map_mono _ hmonox xs hxne]
    simp
  have hminy : arrMin (normalizeTrack pts dist).y = 100 := by
    rw [hylist, arrMin_map_mono _ hmonoy ys hyne]
    simp
  have hmaxx : arrMax (normalizeTrack pts dist).x =
      (arrMax xs - arrMin xs) * (800 / S) + 100 := by
    rw [hxlist, arrMax_map_mono _ hmonox xs hxne]
  have hmaxy : arrMax (normalizeTrack pts dist).y =
      (arrMax ys - arrMin ys) * (800 / S) + 100 := by
    rw [hylist, arrMax_map_mono _ hmonoy ys hyne]
  have hScancel : S * (800 / S) = 800 := by
    field_simp
  refine ⟨rfl, hminx, hminy, ?_, ?_⟩
  · rw [hmaxx, hminx]
    have hle : arrMax xs - arrMin xs ≤ S := le_max_left _ _
    have := mul_le_mul_of_nonneg_right hle (le_of_lt hscale)
    calc (arrMax xs - arrMin xs) * (800 / S) + 100 - 100
        = (arrMax xs - arrMin xs) * (800 / S) := by ring
      _ ≤ S * (800 / S) := this
      _ = 800 := hScancel
  · rw [hmaxy, hminy]
    have hle : arrMax ys - arrMin ys ≤ S := le_max_right _ _
    have := mul_le_mul_of_nonneg_right hle (le_of_lt hscale)
    calc (arrMax ys - arrMin ys) * (800 / S) + 100 - 100
        = (arrMax ys - arrMin ys) * (800 / S) := by ring
      _ ≤ S * (800 / S) := this
      _ = 800 := hScancel

/-- C7 (witness): the invariant on the concrete two-point lap
`[(0,0), (2,1)]`: scale 400, minima 100, spans 800 and 400. -/
theorem c7_track_normalization_witness :
    (normalizeTrack [((0 : ℚ), (0 : ℚ)), (2, 1)] []).norm =
      some (800 / max (arrMax [(0 : ℚ), 2] - arrMin [(0 : ℚ), 2])
          (arrMax [(0 : ℚ), 1] - arrMin [(0 : ℚ), 1]),
        arrMin [(0 : ℚ), 2], arrMin [(0 : ℚ), 1]) ∧
    arrMin (normalizeTrack [((0 : ℚ), (0 : ℚ)), (2, 1)] []).x = 100 ∧
    arrMin (normalizeTrack [((0 : ℚ), (0 : ℚ)), (2, 1)] []).y = 100 ∧
    arrMax (normalizeTrack [((0 : ℚ), (0 : ℚ)), (2, 1)] []).x -
      arrMin (normalizeTrack [((0 : ℚ), (0 : ℚ)), (2, 1)] []).x ≤ 800 ∧
    arrMax (normalizeTrack [((0 : ℚ), (0 : ℚ)), (2, 1)] []).y -
      arrMin (normalizeTrack [((0 : ℚ), (0 : ℚ)), (2, 1)] []).y ≤ 800 := by
  have h := c7_track_normalization [((0 : ℚ), (0 : ℚ)), (2, 1)] [] (by simp)
    (by norm_num [arrMax, arrMin])
  simpa using h

/-! Helper lemmas about `numberedFrom`, `maxLapVal` and the stint loop. -/

theorem numberedFrom_cons {l : LapRec} {ls : List LapRec} {a : ℤ}
    (h : numberedFrom (l :: ls) a) : l.lapNumber = a ∧ numberedFrom ls (a + 1) := by
  constructor
  · have := h 0 (by simp)
    simpa using this
  · intro i hi
    have h2 := h (i + 1) (by simpa using Nat.succ_lt_succ hi)
    simp only [List.getD_cons_succ] at h2
    rw [h2]
    push_cast
    ring

theorem foldl_max_numbered :
    ∀ (laps : List LapRec) (a : ℤ), numberedFrom laps a →
      (laps.map (·.lapNumber)).foldl max (a - 1) = a + laps.length - 1 := by
  intro laps
  induction laps with
  | nil =>
    intro a _
    simp
  | cons l ls ih =>
    intro a h
    obtain ⟨h1, h2⟩ := numberedFrom_cons h
    simp only [List.map_cons, List.foldl_cons]
    rw [h1, show max (a - 1) a = (a + 1) - 1 by omega, ih (a + 1) h2]
    simp only [List.length_cons]
    push_cast
    ring

theorem maxLapVal_numbered (laps : List LapRec) (h : numberedFrom laps 1) :
    maxLapVal laps = laps.length := by
  cases laps with
  | nil => rfl
  | cons l ls =>
    obtain ⟨h1, h2⟩ := numberedFrom_cons h
    simp only [maxLapVal, List.map_cons, intMax]
    rw [h1]
    have h3 := foldl_max_numbered ls 2 h2
    norm_num at h3
    rw [h3]
    simp only [List.length_cons]
    push_cast
    ring

theorem stintsFrom_eq_rleFrom :
    ∀ (laps : List LapRec) (a s : ℤ) (c : String) (m : ℤ),
      c ≠ "" → (∀ l ∈ laps, l.compound ≠ "") → numberedFrom laps a →
      s ≤ a - 1 → m = a + laps.length - 1 →
      stintsFrom laps (some c) s m = rleFrom s c (a - 1) (laps.map (·.compound)) := by
  intro laps
  induction laps with
  | nil =>
    intro a s c m hc _ _ _ hm
    simp only [stintsFrom, List.map_nil, rleFrom, if_pos hc]
    simp only [List.length_nil] at hm
    rw [hm]
    norm_num
  | cons l ls ih =>
    intro a s c m hc hcomp hnum hs hm
    obtain ⟨h1, h2⟩ := numberedFrom_cons hnum
    have hlc : l.compound ≠ "" := hcomp l (by simp)
    have hm2 : m = (a + 1) + ls.length - 1 := by
      simp only [List.length_cons] at hm
      push_cast at hm ⊢
      omega
    simp only [stintsFrom, List.map_cons, rleFrom]
    by_cases heq : l.compound = c
    · rw [if_neg (by simp [heq]), if_pos heq]
      have := ih (a + 1) s c m hc (fun q hq => hcomp q (by simp [hq])) h2
        (by omega) hm2
      rw [show a - 1 + 1 = (a + 1) - 1 by ring]
      exact this
    · rw [if_pos (by simp [heq]), if_neg heq, if_pos hc, h1]
      have := ih (a + 1) a l.compound m hlc (fun q hq => hcomp q (by simp [hq])) h2
        (by omega) hm2
      rw [show a - 1 + 1 = a by ring]
      rw [show (a + 1) - 1 = a from by ring] at this
      rw [this]
      rfl

theorem rleFrom_chain :
    ∀ (cs : List String) (s : ℤ) (c : String) (pos : ℤ), s ≤ pos →
      stintChain s (pos + cs.length) (rleFrom s c pos cs) := by
  intro cs
  induction cs with
  | nil =>
    intro s c pos hs
    have h : stintChain s pos [⟨c, s, pos⟩] := ⟨rfl, hs, rfl⟩
    simpa [rleFrom] using h
  | cons d rest ih =>
    intro s c pos hs
    simp only [rleFrom]
    have hlen : pos + ((d :: rest).length : ℤ) = (pos + 1) + (rest.length : ℤ) := by
      simp only [List.length_cons]
      push_cast
      ring
    by_cases hdc : d = c
    · rw [if_pos hdc, hlen]
      exact ih s c (pos + 1) (by omega)
    · rw [if_neg hdc, hlen]
      exact ⟨rfl, hs, ih (pos + 1) d (pos + 1) le_rfl⟩

/-- C8 (counterexample): the stints do not always cover every lap.
With the empty string as lap 1's compound (`if current_compound:` is
Python truthiness, false for `""`), the SOFT stint opened at lap 2 is
the only stint produced: lap 1 — consecutive numbering from 1
notwithstanding — is covered by no stint. -/
theorem c8_empty_compound_uncovered :
    tyreStints [⟨1, ""⟩, ⟨2, "SOFT"⟩] = [⟨"SOFT", 2, 2⟩] ∧
      coversLap (tyreStints [⟨1, ""⟩, ⟨2, "SOFT"⟩]) 1 = false ∧
      numberedFrom [⟨1, ""⟩, ⟨2, "SOFT"⟩] 1 := by
  refine ⟨rfl, rfl, by decide⟩

/-- C8 (amended): for every driver whose laps are numbered
consecutively from 1 *and whose compound strings are all nonempty*, the
stints equal the run-length grouping of the compound sequence (a new
stint begins exactly when a lap's compound differs from the immediately
preceding lap's), and they form a contiguous, non-overlapping chain
ordered by `start_lap` that covers every lap from 1 to the driver's
maximum lap, the final stint ending at that maximum (which equals the
lap count). -/
theorem c8_tyre_stints_spec (laps : List LapRec) (hnum : numberedFrom laps 1)
    (hcomp : ∀ l ∈ laps, l.compound ≠ "") :
    tyreStints laps = rleStints (laps.map (·.compound)) ∧
      stintChain 1 (maxLapVal laps) (tyreStints laps) ∧
      maxLapVal laps = laps.length := by
  cases laps with
  | nil =>
    refine ⟨rfl, ?_, rfl⟩
    exact rfl
  | cons l ls =>
    obtain ⟨h1, h2⟩ := numberedFrom_cons hnum
    have hmax : maxLapVal (l :: ls) = ((l :: ls).length : ℤ) :=
      maxLapVal_numbered _ hnum
    have hlc : l.compound ≠ "" := hcomp l (by simp)
    have heq : tyreStints (l :: ls) =
        rleFrom 1 l.compound 1 (ls.map (·.compound)) := by
      simp only [tyreStints, stintsFrom, if_pos (by simp : some l.compound ≠ none)]
      rw [h1]
      have hm : maxLapVal (l :: ls) = 2 + (ls.length : ℤ) - 1 := by
        rw [hmax]
        simp only [List.length_cons]
        push_cast
        ring
      have := stintsFrom_eq_rleFrom ls 2 1 l.compound (maxLapVal (l :: ls)) hlc
        (fun q hq => hcomp q (by simp [hq])) h2 (by norm_num) hm
      rw [show ((2 : ℤ) - 1) = 1 by norm_num] at this
      simpa using this
    refine ⟨?_, ?_, hmax⟩
    · rw [heq]
      rfl
    · rw [heq, hmax]
      have := rleFrom_chain (ls.map (·.compound)) 1 l.compound 1 le_rfl
      have hlen : (1 : ℤ) + ((ls.map (·.compound)).length : ℤ) = ((l :: ls).length : ℤ) := by
        simp only [List.length_map, List.length_cons]
        push_cast
        ring
      rwa [hlen] at this

/-- C8 (witness): the amended statement on the three-lap sequence
SOFT, SOFT, MEDIUM: stints `[{SOFT,1,2},{MEDIUM,3,3}]`, a chain
covering laps 1–3. -/
theorem c8_tyre_stints_spec_witness :
    tyreStints [⟨1, "SOFT"⟩, ⟨2, "SOFT"⟩, ⟨3, "MEDIUM"⟩] =
      rleStints ([⟨1, "SOFT"⟩, ⟨2, "SOFT"⟩, (⟨3, "MEDIUM"⟩ : LapRec)].map (·.compound)) ∧
      stintChain 1 (maxLapVal [⟨1, "SOFT"⟩, ⟨2, "SOFT"⟩, ⟨3, "MEDIUM"⟩])
        (tyreStints [⟨1, "SOFT"⟩, ⟨2, "SOFT"⟩, ⟨3, "MEDIUM"⟩]) ∧
      maxLapVal [⟨1, "SOFT"⟩, ⟨2, "SOFT"⟩, ⟨3, "MEDIUM"⟩] = 3 :=
  c8_tyre_stints_spec [⟨1, "SOFT"⟩, ⟨2, "SOFT"⟩, ⟨3, "MEDIUM"⟩] (by decide)
    (by intro l hl; fin_cases hl <;> simp)

/-! Helper lemmas about the timeline and frame times. -/

theorem arange_length (start stop dt : ℚ) :
    (arange start stop dt).length = (⌈(stop - start) / dt⌉).toNat := by
  unfold arange
  rw [List.length_map, List.length_range]

theorem arange_get (start stop dt : ℚ) (k : ℕ) (hk : k < (arange start stop dt).length) :
    (arange start stop dt).get ⟨k, hk⟩ = start + k * dt := by
  unfold arange
  simp only [List.get_eq_getElem, List.getElem_map, List.getElem_range]

theorem addWeather_map_length (w : List WeatherRow) (tl : List ℚ) (f : ℚ → Frame) :
    (addWeather w tl (tl.map f)).length = tl.length := by
  cases w with
  | nil => simp [addWeather]
  | cons w0 ws => simp [addWeather, List.length_zipWith]

theorem addWeather_map_t (w : List WeatherRow) (tl : List ℚ) (f : ℚ → Frame) (k : ℕ)
    (hk : k < (addWeather w tl (tl.map f)).length) (hk2 : k < tl.length) :
    ((addWeather w tl (tl.map f)).get ⟨k, hk⟩).t = (f (tl.get ⟨k, hk2⟩)).t := by
  cases w with
  | nil =>
    simp only [addWeather, List.get_eq_getElem, List.getElem_map]
  | cons w0 ws =>
    simp only [addWeather, List.get_eq_getElem, List.getElem_zipWith, List.getElem_map]

theorem roundTo_zero (d : ℕ) : roundTo d 0 = 0 := by
  simp [roundTo]

theorem roundTo_mono (d : ℕ) {q r : ℚ} (h : q ≤ r) : roundTo d q ≤ roundTo d r := by
  unfold roundTo
  have hpow : (0 : ℚ) < 10 ^ d := by positivity
  apply (div_le_div_iff_of_pos_right hpow).mpr
  have hmul : q * 10 ^ d ≤ r * 10 ^ d :=
    mul_le_mul_of_nonneg_right h (le_of_lt hpow)
  have hround : round (q * 10 ^ d) ≤ round (r * 10 ^ d) := by
    rw [round_eq, round_eq]
    exact Int.floor_le_floor (by linarith)
  exact_mod_cast hround

/-- C2: for every session whose driver collection succeeded and yielded
telemetry with bounds (`gmin`, `gmax`), the synthesized frame sequence
has exactly the steps `t_k = gmin + k·dt` with `t_k < gmax`
(`dt = 1/fps`); the frame at position `k` carries `t = round(k·dt, 3)`;
frame 0 has `t = 0`; and the frames' `t` values are monotonically
non-decreasing. -/
theorem c2_frame_times (drivers : List (String × List Lap)) (scale ox oy : ℚ)
    (w : List WeatherRow) (fps : ℕ) (allData : List (String × DriverData))
    (gmin gmax : ℚ) (frames : List Frame) (hfps : 0 < fps)
    (hc : collectAllData drivers = .ok allData)
    (hb : globalBounds allData = some (gmin, gmax))
    (hp : process_frames drivers scale ox oy w fps = .ok frames) :
    (∀ k : ℕ, k < frames.length ↔ gmin + (k : ℚ) * (1 / (fps : ℚ)) < gmax) ∧
    (∀ (k : ℕ) (hk : k < frames.length),
      (frames.get ⟨k, hk⟩).t = roundTo 3 ((k : ℚ) * (1 / (fps : ℚ)))) ∧
    (∀ h0 : 0 < frames.length, (frames.get ⟨0, h0⟩).t = 0) ∧
    (∀ (j k : ℕ) (hj : j < frames.length) (hk : k < frames.length), j ≤ k →
      (frames.get ⟨j, hj⟩).t ≤ (frames.get ⟨k, hk⟩).t) := by
  have hfq : (0 : ℚ) < (fps : ℚ) := by exact_mod_cast hfps
  have hdt : (0 : ℚ) < 1 / (fps : ℚ) := by positivity
  simp only [process_frames, hc, hb, Except.ok.injEq] at hp
  subst hp
  have htk : ∀ (k : ℕ)
      (hk : k < (addWeather w (arange gmin gmax (1 / (fps : ℚ)))
        ((arange gmin gmax (1 / (fps : ℚ))).map (fun t =>
          ({ t := roundTo 3 (t - gmin)
             drivers := allData.map (fun cd => (cd.1, mkSnapshot cd.2 scale ox oy t))
             weather := none } : Frame)))).length),
      ((addWeather w (arange gmin gmax (1 / (fps : ℚ)))
        ((arange gmin gmax (1 / (fps : ℚ))).map (fun t =>
          ({ t := roundTo 3 (t - gmin)
             drivers := allData.map (fun cd => (cd.1, mkSnapshot cd.2 scale ox oy t))
             weather := none } : Frame)))).get ⟨k, hk⟩).t =
        roundTo 3 ((k : ℚ) * (1 / (fps : ℚ))) := by
    intro k hk
    have hk2 : k < (arange gmin gmax (1 / (fps : ℚ))).length := by
      rwa [addWeather_map_length] at hk
    rw [addWeather_map_t _ _ _ k hk hk2]
    show roundTo 3 ((arange gmin gmax (1 / (fps : ℚ))).get ⟨k, hk2⟩ - gmin) = _
    rw [arange_get]
    congr 1
    ring
  refine ⟨?_, htk, ?_, ?_⟩
  · intro k
    rw [addWeather_map_length, arange_length]
    constructor
    · intro hk
      have h1 : (k : ℤ) < ⌈(gmax - gmin) / (1 / (fps : ℚ))⌉ := Int.lt_toNat.mp hk
      have h2 : (k : ℚ) < (gmax - gmin) / (1 / (fps : ℚ)) := by
        exact_mod_cast Int.lt_ceil.mp h1
      have h3 : (k : ℚ) * (1 / (fps : ℚ)) < gmax - gmin := (lt_div_iff₀ hdt).mp h2
      linarith
    · intro hk
      have h3 : (k : ℚ) * (1 / (fps : ℚ)) < gmax - gmin := by linarith
      have h2 : (k : ℚ) < (gmax - gmin) / (1 / (fps : ℚ)) := (lt_div_iff₀ hdt).mpr h3
      have h1 : (k : ℤ) < ⌈(gmax - gmin) / (1 / (fps : ℚ))⌉ :=
        Int.lt_ceil.mpr (by exact_mod_cast h2)
      exact Int.lt_toNat.mpr h1
  · intro h0
    have := htk 0 h0
    simpa [roundTo_zero] using this
  · intro j k hj hk hjk
    rw [htk j hj, htk k hk]
    exact roundTo_mono 3
      (mul_le_mul_of_nonneg_right (by exact_mod_cast hjk) (le_of_lt hdt))

/-- C2 (witness): the one-driver session at 1 fps: a single frame whose
`t` is 0 with all four conclusions instantiated. -/
theorem c2_frame_times_witness :
    (∀ k : ℕ, k < [exFrameVER].length ↔ (0 : ℚ) + (k : ℚ) * (1 / ((1 : ℕ) : ℚ)) < 1) ∧
    (∀ (k : ℕ) (hk : k < [exFrameVER].length),
      ([exFrameVER].get ⟨k, hk⟩).t = roundTo 3 ((k : ℚ) * (1 / ((1 : ℕ) : ℚ)))) ∧
    (∀ h0 : 0 < [exFrameVER].length, ([exFrameVER].get ⟨0, h0⟩).t = 0) ∧
    (∀ (j k : ℕ) (hj : j < [exFrameVER].length) (hk : k < [exFrameVER].length), j ≤ k →
      ([exFrameVER].get ⟨j, hj⟩).t ≤ ([exFrameVER].get ⟨k, hk⟩).t) :=
  c2_frame_times [("VER", [exGoodLap]), ("HAM", [])] 1 0 0 [] 1
    [("VER", lapArrays exGoodLap [exS0, exS1])] 0 1 [exFrameVER] (by norm_num)
    rfl rfl exSdHam_frames

end F1
